import Mathlib

attribute [local semireducible] Rat.mul Rat.inv Rat.add Rat.sub

/-!
# Verification of `src/trips.py`

A shallow embedding of the trip-generation pipeline in `src/trips.py`.

The source file defines a class `Trip` holding a parsed GeoJSON feature
collection (`self.json_input`), a start time (`self.start_time`, default
`1583884800`), a speed (`self.m_per_second`, default `10`), and two
reference-system identifiers.  `Trip.generate_trips` optionally overrides
the stored start time and speed (guarded by Python truthiness), then runs
`__json_iterator`, which walks the features, assigns each feature a
starting clock, flattens the feature's coordinate rings, appends a
timestamp to every coordinate pair in place, and shapes the result as
either geojson features or `Waypoints` dictionaries.

Modelling decisions:
* Numbers are `ℚ` (coordinates, distances, speeds) and `ℤ` (clock values);
  Python `int(x)` is `pyInt` (truncation toward zero).
* The external collaborators `pyproj.transform` and shapely's
  `LineString(...).length` are abstracted as the fields of a
  `TransformCtx`: `transform` may fail (unknown reference system) and
  `lineLength` is the planar length routine.  Nothing in `src/trips.py`
  computes these itself.
* Python's in-place mutation (`pair.append(time)` mutates lists shared
  with `self.json_input`) is modelled by explicit state passing: each
  operation returns the updated `TripState` alongside its
  `Except`-wrapped result, and the updated state is returned even when an
  exception propagates (as the mutated heap survives a Python exception).
* Division by a zero speed would raise `ZeroDivisionError` in Python
  while `q / 0 = 0` in `ℚ`; states with `m_per_second = 0` are not
  reachable through `generate_trips` (a zero override is falsy and the
  stored default is `10`), and all theorems that depend on the quotient
  carry a sign hypothesis on the speed.
-/

/-- A Python list holding one coordinate pair, e.g. `[lon, lat]`; after the
iterator has visited it, `[lon, lat, time]`. -/
abbrev Vertex := List ℚ

/-- Errors that can propagate out of the pipeline.  `reprojection` stands
for the exception raised by the external `pyproj.transform` on an
unrecognized reference system; `unboundLocal` is Python's
`UnboundLocalError` from `return output` when no branch of
`generate_trips` assigned `output`; `invalidSpeed` is the
`InvalidSpeedError` named by the documentation — no code path constructs
it. -/
inductive PyErr where
  | reprojection
  | invalidSpeed
  | unboundLocal
  deriving DecidableEq, Repr

instance {ε α : Type} [DecidableEq ε] [DecidableEq α] : DecidableEq (Except ε α) := fun a b =>
  match a, b with
  | .error e₁, .error e₂ =>
      if h : e₁ = e₂ then .isTrue (by rw [h]) else .isFalse (by simp [h])
  | .ok v₁, .ok v₂ =>
      if h : v₁ = v₂ then .isTrue (by rw [h]) else .isFalse (by simp [h])
  | .error _, .ok _ => .isFalse (by simp)
  | .ok _, .error _ => .isFalse (by simp)

/-- The two external geometry collaborators used by `Trip.__get_distance`:
`transform y x` models `pyproj.transform(geographic_crs, projected_crs, y, x)`
(returning `(projected_y, projected_x)`, or failing), and `lineLength p q`
models `shapely.geometry.LineString([p, q]).length`. -/
structure TransformCtx where
  transform : ℚ → ℚ → Except PyErr (ℚ × ℚ)
  lineLength : ℚ × ℚ → ℚ × ℚ → ℚ

/-- One element of `self.json_input['features']`: the per-feature offset
`item['properties']['distance']` and the coordinate rings
`item['geometry']['coordinates']` (a list of lists of pairs; the iterator
flattens one level). -/
structure Feature where
  distance : ℚ
  rings : List (List Vertex)
  deriving DecidableEq, Repr

/-- The mutable attributes of a `Trip` object that the pipeline reads and
writes: `self.json_input['features']`, `self.start_time`,
`self.m_per_second`. -/
structure TripState where
  features : List Feature
  start_time : ℤ
  m_per_second : ℚ
  deriving DecidableEq, Repr

/-- `Trip.__init__`: stored defaults `start_time = 1583884800` and
`m_per_second = 10`. -/
def Trip.init (features : List Feature) : TripState :=
  ⟨features, 1583884800, 10⟩

/-- Python's `int(x)` applied to a real quantity: truncation toward zero. -/
def pyInt (q : ℚ) : ℤ :=
  if 0 ≤ q then ⌊q⌋ else -⌊-q⌋

/-- `Trip.__get_distance(coords_1, coords_2)`: reads element 0 and 1 of each
pair, reprojects both points via `transform`, and takes the planar segment
length.  Python indexing `pair[0]` is modelled with `List.getD` (all call
sites pass lists of length ≥ 2). -/
def get_distance (ctx : TransformCtx) (coords_1 coords_2 : Vertex) : Except PyErr ℚ := do
  let x1 := coords_2.getD 0 0
  let y1 := coords_2.getD 1 0
  let x2 := coords_1.getD 0 0
  let y2 := coords_1.getD 1 0
  let (projected_y1, projected_x1) ← ctx.transform y1 x1
  let (projected_y2, projected_x2) ← ctx.transform y2 x2
  pure (ctx.lineLength (projected_x1, projected_y1) (projected_x2, projected_y2))

/-- The `i ≥ 1` iterations of the inner loop of `Trip.__json_iterator`
(`for i, pair in enumerate(this_coords)` with `j = i - 1`):
`prev` is `this_coords[j]` (already carrying its appended timestamp),
`time` is the running clock.  Returns the list as mutated so far together
with the final clock, or the list as mutated up to the failing
`__get_distance` call together with the propagated error. -/
def vertexLoop (ctx : TransformCtx) (speed : ℚ) :
    ℤ → Vertex → List Vertex → List Vertex × Except PyErr ℤ
  | time, _, [] => ([], .ok time)
  | time, prev, pair :: rest =>
    match get_distance ctx prev pair with
    | .error e => (pair :: rest, .error e)
    | .ok line_length =>
      let t := time + pyInt (line_length / speed)
      let pair' := pair ++ [(t : ℚ)]
      let (rest', r) := vertexLoop ctx speed t pair' rest
      (pair' :: rest', r)

/-- The whole inner loop of `Trip.__json_iterator` over `this_coords`:
the `i = 0` iteration appends the seed clock to the first pair, the rest
is `vertexLoop`. -/
def processCoords (ctx : TransformCtx) (speed : ℚ) (time : ℤ) :
    List Vertex → List Vertex × Except PyErr ℤ
  | [] => ([], .ok time)
  | pair :: rest =>
    let pair0 := pair ++ [(time : ℚ)]
    let (rest', r) := vertexLoop ctx speed time pair0 rest
    (pair0 :: rest', r)

/-- The per-feature seed clock of `Trip.__json_iterator`:
`time = self.start_time` for the feature at index 0, and
`time = int(self.start_time + distance_from_start / self.m_per_second)`
for every later feature. -/
def featureTime (start_time : ℤ) (m_per_second : ℚ) (x : ℕ) (f : Feature) : ℤ :=
  if x = 0 then start_time
  else pyInt ((start_time : ℚ) + f.distance / m_per_second)

/-- One entry of the Deck.gl `Waypoints` array:
`{"coordinates": [pair[0], pair[1]], "timestamp": pair[2]}`. -/
structure Waypoint where
  coordinates : List ℚ
  timestamp : ℚ
  deriving DecidableEq, Repr

/-- `Waypoints.__set_coords`. -/
def set_coords (coords : List Vertex) : List Waypoint :=
  coords.map (fun pair => ⟨[pair.getD 0 0, pair.getD 1 0], pair.getD 2 0⟩)

/-- `Waypoints.__init__`: the `"waypoints"` key is only set when the
coordinate list is truthy (non-empty). -/
def waypointsOf (coords : List Vertex) : Option (List Waypoint) :=
  if coords.isEmpty then none else some (set_coords coords)

/-- One element appended to `feature_list` by `Trip.__json_iterator`:
either a geojson `Feature` wrapping `LineString(this_coords)` (whose
coordinate tuples are the mutated `[lon, lat, time]` lists) or a
`Waypoints(this_coords)` object. -/
inductive OutFeature where
  | jsonFeature (coords : List Vertex)
  | waypoints (w : Option (List Waypoint))
  deriving DecidableEq, Repr

/-- The `output_type` dispatch at the bottom of the feature loop:
`"json"` and `"waypoints"` each append one element; any other tag appends
nothing. -/
def outOf (output_type : String) (coords : List Vertex) : List OutFeature :=
  if output_type = "json" then [.jsonFeature coords]
  else if output_type = "waypoints" then [.waypoints (waypointsOf coords)]
  else []

/-- Regroups a flattened, mutated coordinate list back into the ring shape
it was flattened from.  This realises the aliasing in the source: the
lists mutated through `this_coords` are the very lists stored in
`item['geometry']['coordinates']`. -/
def splitByLens : List ℕ → List Vertex → List (List Vertex)
  | [], _ => []
  | n :: ns, l => l.take n :: splitByLens ns (l.drop n)

/-- The feature loop of `Trip.__json_iterator`
(`for x, item in enumerate(self.json_input['features'])`), with `x` the
running index.  Returns the features as mutated by the loop together
with `feature_list`, or with the propagated error. -/
def iterFeatures (ctx : TransformCtx) (start_time : ℤ) (m_per_second : ℚ)
    (output_type : String) :
    ℕ → List Feature → List Feature × Except PyErr (List OutFeature)
  | _, [] => ([], .ok [])
  | x, f :: rest =>
    let time := featureTime start_time m_per_second x f
    let this_coords := f.rings.flatten
    let (flat', r) := processCoords ctx m_per_second time this_coords
    let f' : Feature := ⟨f.distance, splitByLens (f.rings.map List.length) flat'⟩
    match r with
    | .error e => (f' :: rest, .error e)
    | .ok _ =>
      match iterFeatures ctx start_time m_per_second output_type (x + 1) rest with
      | (rest', .error e) => (f' :: rest', .error e)
      | (rest', .ok outs) => (f' :: rest', .ok (outOf output_type flat' ++ outs))

/-- `Trip.__json_iterator` as a state transformer on the `Trip` object. -/
def json_iterator (ctx : TransformCtx) (st : TripState) (output_type : String) :
    TripState × Except PyErr (List OutFeature) :=
  let (fs', r) := iterFeatures ctx st.start_time st.m_per_second output_type 0 st.features
  ({ st with features := fs' }, r)

/-- The value returned by `Trip.generate_trips`: a geojson
`FeatureCollection(features)` or the bare `feature_list`. -/
inductive TripOutput where
  | featureCollection (features : List OutFeature)
  | waypointList (features : List OutFeature)
  deriving DecidableEq, Repr

/-- The override prologue of `Trip.generate_trips`:
`if start_time: self.start_time = start_time` and likewise for
`m_per_second`.  A `none` argument is Python's `None`, and a supplied `0`
is falsy, so both leave the stored attribute unchanged. -/
def applyOverrides (st : TripState) (start_time : Option ℤ) (m_per_second : Option ℚ) :
    TripState :=
  let st1 := match start_time with
    | some s => if s = 0 then st else { st with start_time := s }
    | none => st
  match m_per_second with
  | some m => if m = 0 then st1 else { st1 with m_per_second := m }
  | none => st1

/-- `Trip.generate_trips(output_type, start_time, m_per_second)`.  The
final `return output` raises `UnboundLocalError` when neither branch of
the `if/elif` matched `output_type` (note `'json'.lower() = "json"` and
`'waypoints'.lower() = "waypoints"`). -/
def generate_trips (ctx : TransformCtx) (st : TripState) (output_type : String)
    (start_time : Option ℤ) (m_per_second : Option ℚ) :
    TripState × Except PyErr TripOutput :=
  let st1 := applyOverrides st start_time m_per_second
  if output_type = "json" then
    let (st2, r) := json_iterator ctx st1 "json"
    (st2, r.map .featureCollection)
  else if output_type = "waypoints" then
    let (st2, r) := json_iterator ctx st1 "waypoints"
    (st2, r.map .waypointList)
  else
    (st1, .error .unboundLocal)

/-! ## Derived observations and specification-side functions -/

/-- The timestamp slot of a mutated coordinate list: `pair[2]`. -/
def tsOf (v : Vertex) : ℚ := v.getD 2 0

/-- Strips the synthesized timestamps from one output element, leaving the
geographic coordinates: dropping the third ordinate of each geometry
tuple, or reading the `coordinates` field of each `Waypoint`. -/
def stripOut : OutFeature → List (List ℚ)
  | .jsonFeature coords => coords.map (fun v => v.take 2)
  | .waypoints none => []
  | .waypoints (some wps) => wps.map Waypoint.coordinates

/-- Appends the `k`-th timestamp to the `k`-th coordinate pair — the shape
of the iterator's in-place mutation. -/
def zipApp (cs : List Vertex) (ts : List ℤ) : List Vertex :=
  List.zipWith (fun (c : Vertex) (t : ℤ) => c ++ [(t : ℚ)]) cs ts

/-- Timestamps of the vertices after the first one: the functional
residue of `vertexLoop` (same clock recurrence, previous vertex taken
un-mutated), together with the final clock. -/
def timesAux (ctx : TransformCtx) (speed : ℚ) :
    ℤ → Vertex → List Vertex → Option (List ℤ × ℤ)
  | t, _, [] => some ([], t)
  | t, prev, c :: cs =>
    match get_distance ctx prev c with
    | .error _ => none
    | .ok d =>
      let t' := t + pyInt (d / speed)
      (timesAux ctx speed t' c cs).map (fun p => (t' :: p.1, p.2))

/-- Timestamps of all vertices of one flattened path, with the final
clock. -/
def timesAll (ctx : TransformCtx) (speed : ℚ) (t0 : ℤ) :
    List Vertex → Option (List ℤ × ℤ)
  | [] => some ([], t0)
  | c :: cs => (timesAux ctx speed t0 c cs).map (fun p => (t0 :: p.1, p.2))

/-! ## Concrete instances used in counterexamples and witnesses -/

/-- A transform context whose reprojection is the identity and whose
planar length routine is the taxicab metric — enough to drive the
pipeline through concrete, exactly computable runs. -/
def exCtx : TransformCtx :=
  ⟨fun y x => .ok (y, x), fun p q => |p.1 - q.1| + |p.2 - q.2|⟩

/-- A transform context whose reprojection always fails, as `pyproj` does
on an unrecognized reference-system identifier. -/
def failCtx : TransformCtx := ⟨fun _ _ => .error .reprojection, fun _ _ => 0⟩

/-- One feature, one ring, two vertices 100 apart; start 0, speed 10. -/
def exSt1 : TripState := ⟨[⟨0, [[[0, 0], [0, 100]]]⟩], 0, 10⟩

/-- Two features with identical offset `distance = 100` and identical
geometry; start 0, speed 10. -/
def exSt2 : TripState :=
  ⟨[⟨100, [[[0, 0], [0, 10]]]⟩, ⟨100, [[[0, 0], [0, 10]]]⟩], 0, 10⟩

/-- Two features whose boundary vertices coincide: the second feature
starts at `[0, 100]`, exactly where the first one ends; both offsets 0;
start 0, speed 10. -/
def exStA : TripState :=
  ⟨[⟨0, [[[0, 0], [0, 100]]]⟩, ⟨0, [[[0, 100], [0, 0]]]⟩], 0, 10⟩

/-- Two single-vertex features, the second with offset `distance = 20`. -/
def exStB : TripState := ⟨[⟨0, [[[0, 0]]]⟩, ⟨20, [[[1, 1]]]⟩], 0, 10⟩

/-- Default `Feature` used with `List.getD`. -/
def dFeat : Feature := ⟨0, []⟩

/-- Default `OutFeature` used with `List.getD`. -/
def dOut : OutFeature := .jsonFeature []

/-- Default `Waypoint` used with `List.getD`. -/
def dWp : Waypoint := ⟨[], 0⟩

/-! ## Arithmetic lemmas on `pyInt` -/

theorem pyInt_eq_floor {q : ℚ} (h : 0 ≤ q) : pyInt q = ⌊q⌋ := by
  simp [pyInt, h]

theorem pyInt_nonneg {q : ℚ} (h : 0 ≤ q) : 0 ≤ pyInt q := by
  rw [pyInt_eq_floor h]
  exact Int.floor_nonneg.mpr h

theorem pyInt_eq_zero {q : ℚ} (h0 : 0 ≤ q) (h1 : q < 1) : pyInt q = 0 := by
  rw [pyInt_eq_floor h0]
  exact Int.floor_eq_zero_iff.mpr ⟨h0, h1⟩

theorem pyInt_zero : pyInt 0 = 0 := by
  simp [pyInt]

theorem pyInt_intCast_add {n : ℤ} {q : ℚ} (hn : 0 ≤ (n : ℚ) + q) :
    pyInt ((n : ℚ) + q) = n + ⌊q⌋ := by
  rw [pyInt_eq_floor hn, add_comm ((n : ℚ)) q, Int.floor_add_int, add_comm]

/-! ## Lemmas about `get_distance` -/

theorem get_distance_eq (ctx : TransformCtx) (c1 c2 : Vertex) :
    get_distance ctx c1 c2 =
      match ctx.transform (c2.getD 1 0) (c2.getD 0 0) with
      | .error e => .error e
      | .ok (py1, px1) =>
        match ctx.transform (c1.getD 1 0) (c1.getD 0 0) with
        | .error e => .error e
        | .ok (py2, px2) => .ok (ctx.lineLength (px1, py1) (px2, py2)) := by
  unfold get_distance
  cases h1 : ctx.transform (c2.getD 1 0) (c2.getD 0 0) with
  | error e => simp only [Bind.bind, Except.bind, h1]
  | ok p1 =>
    obtain ⟨py1, px1⟩ := p1
    cases h2 : ctx.transform (c1.getD 1 0) (c1.getD 0 0) with
    | error e => simp only [Bind.bind, Except.bind, h1, h2]
    | ok p2 =>
      obtain ⟨py2, px2⟩ := p2
      simp only [Bind.bind, Except.bind, Pure.pure, Except.pure, h1, h2]

theorem get_distance_ok_nonneg {ctx : TransformCtx}
    (hL : ∀ p q, 0 ≤ ctx.lineLength p q)
    {c1 c2 : Vertex} {d : ℚ} (h : get_distance ctx c1 c2 = .ok d) : 0 ≤ d := by
  rw [get_distance_eq] at h
  cases h1 : ctx.transform (c2.getD 1 0) (c2.getD 0 0) with
  | error e => rw [h1] at h; exact Except.noConfusion h
  | ok p1 =>
    obtain ⟨py1, px1⟩ := p1
    rw [h1] at h
    cases h2 : ctx.transform (c1.getD 1 0) (c1.getD 0 0) with
    | error e => rw [h2] at h; exact Except.noConfusion h
    | ok p2 =>
      obtain ⟨py2, px2⟩ := p2
      rw [h2] at h
      cases h
      exact hL _ _

theorem get_distance_error {ctx : TransformCtx} {c1 c2 : Vertex} {e : PyErr}
    (h : get_distance ctx c1 c2 = .error e) :
    ∃ y x, ctx.transform y x = .error e := by
  rw [get_distance_eq] at h
  cases h1 : ctx.transform (c2.getD 1 0) (c2.getD 0 0) with
  | error e' =>
    rw [h1] at h
    obtain rfl : e' = e := by cases h; rfl
    exact ⟨_, _, h1⟩
  | ok p1 =>
    obtain ⟨py1, px1⟩ := p1
    rw [h1] at h
    cases h2 : ctx.transform (c1.getD 1 0) (c1.getD 0 0) with
    | error e' =>
      rw [h2] at h
      obtain rfl : e' = e := by cases h; rfl
      exact ⟨_, _, h2⟩
    | ok p2 =>
      obtain ⟨py2, px2⟩ := p2
      rw [h2] at h
      exact Except.noConfusion h

theorem get_distance_of_transforms {ctx : TransformCtx} {c1 c2 : Vertex} {p1 p2 : ℚ × ℚ}
    (h2 : ctx.transform (c2.getD 1 0) (c2.getD 0 0) = .ok p2)
    (h1 : ctx.transform (c1.getD 1 0) (c1.getD 0 0) = .ok p1) :
    get_distance ctx c1 c2 = .ok (ctx.lineLength (p2.2, p2.1) (p1.2, p1.1)) := by
  obtain ⟨py1, px1⟩ := p1
  obtain ⟨py2, px2⟩ := p2
  rw [get_distance_eq, h2, h1]

theorem get_distance_append {ctx : TransformCtx} {p : Vertex} (x : ℚ) (c : Vertex)
    (hp : 2 ≤ p.length) : get_distance ctx (p ++ [x]) c = get_distance ctx p c := by
  match p, hp with
  | a :: b :: t, _ =>
    rw [get_distance_eq, get_distance_eq]
    simp [List.getD_cons_zero, List.getD_cons_succ, List.cons_append]

/-! ## Lemmas about `zipApp` and appended vertices -/

theorem zipApp_length {cs : List Vertex} {ts : List ℤ} (h : ts.length = cs.length) :
    (zipApp cs ts).length = cs.length := by
  unfold zipApp
  rw [List.length_zipWith, h, min_self]

theorem zipApp_getD : ∀ (cs : List Vertex) (ts : List ℤ) (i : ℕ),
    i < cs.length → i < ts.length →
    (zipApp cs ts).getD i [] = cs.getD i [] ++ [((ts.getD i 0 : ℤ) : ℚ)]
  | [], _, i, hc, _ => absurd hc (by simp)
  | _ :: _, [], i, _, ht => absurd ht (by simp)
  | c :: cs, t :: ts, 0, _, _ => rfl
  | c :: cs, t :: ts, i + 1, hc, ht =>
    zipApp_getD cs ts i (by simpa using hc) (by simpa using ht)

theorem append_take_two {v : Vertex} (hv : v.length = 2) (q : ℚ) :
    (v ++ [q]).take 2 = v := by
  obtain ⟨a, b, rfl⟩ := List.length_eq_two.mp hv
  rfl

theorem tsOf_append {v : Vertex} (hv : v.length = 2) (q : ℚ) :
    tsOf (v ++ [q]) = q := by
  obtain ⟨a, b, rfl⟩ := List.length_eq_two.mp hv
  rfl

theorem coords_append {v : Vertex} (hv : v.length = 2) (q : ℚ) :
    [(v ++ [q]).getD 0 0, (v ++ [q]).getD 1 0] = v := by
  obtain ⟨a, b, rfl⟩ := List.length_eq_two.mp hv
  rfl

/-! ## Characterization of the vertex loop -/

theorem vertexLoop_ok {ctx : TransformCtx} {speed : ℚ} {cs : List Vertex} :
    ∀ {t : ℤ} {p : Vertex} {x : ℚ} {cs' : List Vertex} {tf : ℤ},
    2 ≤ p.length → (∀ v ∈ cs, 2 ≤ v.length) →
    vertexLoop ctx speed t (p ++ [x]) cs = (cs', Except.ok tf) →
    ∃ ts, timesAux ctx speed t p cs = some (ts, tf) ∧ cs' = zipApp cs ts := by
  induction cs with
  | nil =>
    intro t p x cs' tf hp hcs h
    simp only [vertexLoop] at h
    injection h with h1 h2
    injection h2 with h2
    exact ⟨[], by rw [timesAux, h2], by rw [← h1]; rfl⟩
  | cons c cs ih =>
    intro t p x cs' tf hp hcs h
    simp only [vertexLoop] at h
    rw [get_distance_append x c hp] at h
    cases hd : get_distance ctx p c with
    | error e =>
      rw [hd] at h
      injection h with h1 h2
      exact Except.noConfusion h2
    | ok d =>
      rw [hd] at h
      dsimp only at h
      rcases hrec : vertexLoop ctx speed (t + pyInt (d / speed))
          (c ++ [((t + pyInt (d / speed) : ℤ) : ℚ)]) cs with ⟨rest', r⟩
      rw [hrec] at h
      dsimp only at h
      injection h with h1 h2
      subst h2
      obtain ⟨ts, hts, hrest⟩ :=
        ih (hcs c (by simp)) (fun v hv => hcs v (by simp [hv])) hrec
      refine ⟨(t + pyInt (d / speed)) :: ts, ?_, ?_⟩
      · simp only [timesAux, hd]
        rw [hts]
        rfl
      · rw [← h1, hrest]
        rfl

theorem processCoords_ok {ctx : TransformCtx} {speed : ℚ} {t0 : ℤ}
    {coords coords' : List Vertex} {tf : ℤ}
    (hlen : ∀ v ∈ coords, 2 ≤ v.length)
    (h : processCoords ctx speed t0 coords = (coords', Except.ok tf)) :
    ∃ tsAll, timesAll ctx speed t0 coords = some (tsAll, tf) ∧
      coords' = zipApp coords tsAll := by
  cases coords with
  | nil =>
    simp only [processCoords] at h
    injection h with h1 h2
    injection h2 with h2
    exact ⟨[], by rw [timesAll, h2], by rw [← h1]; rfl⟩
  | cons c cs =>
    simp only [processCoords] at h
    rcases hrec : vertexLoop ctx speed t0 (c ++ [(t0 : ℚ)]) cs with ⟨rest', r⟩
    rw [hrec] at h
    dsimp only at h
    injection h with h1 h2
    subst h2
    obtain ⟨ts, hts, hrest⟩ :=
      vertexLoop_ok (hlen c (by simp)) (fun v hv => hlen v (by simp [hv])) hrec
    refine ⟨t0 :: ts, ?_, ?_⟩
    · rw [timesAll, hts]
      rfl
    · rw [← h1, hrest]
      rfl

/-! ## The clock recurrence carried by `timesAux` / `timesAll` -/

theorem timesAux_spec {ctx : TransformCtx} {speed : ℚ} {cs : List Vertex} :
    ∀ {t : ℤ} {p : Vertex} {ts : List ℤ} {tf : ℤ},
    timesAux ctx speed t p cs = some (ts, tf) →
    ts.length = cs.length ∧
    ∀ i, i < cs.length →
      ∃ d, get_distance ctx ((p :: cs).getD i []) (cs.getD i []) = Except.ok d ∧
        ts.getD i 0 = (t :: ts).getD i 0 + pyInt (d / speed) := by
  induction cs with
  | nil =>
    intro t p ts tf h
    rw [timesAux] at h
    injection h with h
    injection h with h1 h2
    subst h1
    exact ⟨rfl, fun i hi => absurd hi (by simp)⟩
  | cons c cs ih =>
    intro t p ts tf h
    rw [timesAux] at h
    cases hd : get_distance ctx p c with
    | error e => rw [hd] at h; exact Option.noConfusion h
    | ok d =>
      rw [hd] at h
      dsimp only at h
      cases hrec : timesAux ctx speed (t + pyInt (d / speed)) c cs with
      | none => rw [hrec] at h; exact Option.noConfusion h
      | some pr =>
        obtain ⟨ts', tf'⟩ := pr
        rw [hrec] at h
        dsimp only [Option.map] at h
        injection h with h
        injection h with h1 h2
        subst h1
        subst h2
        obtain ⟨hlen, hidx⟩ := ih hrec
        refine ⟨by simp [hlen], fun i hi => ?_⟩
        cases i with
        | zero => exact ⟨d, hd, rfl⟩
        | succ j =>
          obtain ⟨d', hd', hts'⟩ := hidx j (by simpa using hi)
          exact ⟨d', by simpa using hd', by simpa using hts'⟩

theorem timesAll_spec {ctx : TransformCtx} {speed : ℚ} {t0 : ℤ}
    {coords : List Vertex} {tsAll : List ℤ} {tf : ℤ}
    (h : timesAll ctx speed t0 coords = some (tsAll, tf)) :
    tsAll.length = coords.length ∧
    tsAll.getD 0 0 = (if coords = [] then 0 else t0) ∧
    ∀ i, i + 1 < coords.length →
      ∃ d, get_distance ctx (coords.getD i []) (coords.getD (i + 1) []) = Except.ok d ∧
        tsAll.getD (i + 1) 0 = tsAll.getD i 0 + pyInt (d / speed) := by
  cases coords with
  | nil =>
    rw [timesAll] at h
    injection h with h
    injection h with h1 h2
    subst h1
    exact ⟨rfl, rfl, fun i hi => absurd hi (by simp)⟩
  | cons c cs =>
    rw [timesAll] at h
    cases hrec : timesAux ctx speed t0 c cs with
    | none => rw [hrec] at h; exact Option.noConfusion h
    | some pr =>
      obtain ⟨ts, tf'⟩ := pr
      rw [hrec] at h
      dsimp only [Option.map] at h
      injection h with h
      injection h with h1 h2
      subst h1
      subst h2
      obtain ⟨hlen, hidx⟩ := timesAux_spec hrec
      refine ⟨by simp [hlen], by simp, fun i hi => ?_⟩
      obtain ⟨d, hd, hts⟩ := hidx i (by simpa using hi)
      exact ⟨d, by simpa using hd, by simpa using hts⟩

/-! ## Regrouping mutated coordinates into rings -/

theorem splitByLens_flatten : ∀ (ls : List ℕ) (l : List Vertex),
    (splitByLens ls l).flatten = l.take ls.sum
  | [], l => by simp [splitByLens]
  | n :: ns, l => by
    simp only [splitByLens, List.flatten_cons, splitByLens_flatten ns (l.drop n),
      List.sum_cons]
    rw [List.take_add]

theorem splitByLens_flatten_full {ls : List ℕ} {l : List Vertex}
    (h : ls.sum = l.length) : (splitByLens ls l).flatten = l := by
  rw [splitByLens_flatten, h, List.take_length]

/-! ## Error propagation: every pipeline error is a transform error or the
unbound `output` variable -/

theorem vertexLoop_error {ctx : TransformCtx} {speed : ℚ} {cs : List Vertex} :
    ∀ {t : ℤ} {p : Vertex} {cs' : List Vertex} {e : PyErr},
    vertexLoop ctx speed t p cs = (cs', Except.error e) →
    ∃ a b, get_distance ctx a b = Except.error e := by
  induction cs with
  | nil =>
    intro t p cs' e h
    simp only [vertexLoop] at h
    injection h with h1 h2
    exact Except.noConfusion h2
  | cons c cs ih =>
    intro t p cs' e h
    simp only [vertexLoop] at h
    cases hd : get_distance ctx p c with
    | error e' =>
      rw [hd] at h
      injection h with h1 h2
      injection h2 with h2
      subst h2
      exact ⟨p, c, hd⟩
    | ok d =>
      rw [hd] at h
      dsimp only at h
      rcases hrec : vertexLoop ctx speed (t + pyInt (d / speed))
          (c ++ [((t + pyInt (d / speed) : ℤ) : ℚ)]) cs with ⟨rest', r⟩
      rw [hrec] at h
      dsimp only at h
      injection h with h1 h2
      subst h2
      exact ih hrec

theorem processCoords_error {ctx : TransformCtx} {speed : ℚ} {t0 : ℤ}
    {coords coords' : List Vertex} {e : PyErr}
    (h : processCoords ctx speed t0 coords = (coords', Except.error e)) :
    ∃ a b, get_distance ctx a b = Except.error e := by
  cases coords with
  | nil =>
    simp only [processCoords] at h
    injection h with h1 h2
    exact Except.noConfusion h2
  | cons c cs =>
    simp only [processCoords] at h
    rcases hrec : vertexLoop ctx speed t0 (c ++ [(t0 : ℚ)]) cs with ⟨rest', r⟩
    rw [hrec] at h
    dsimp only at h
    injection h with h1 h2
    subst h2
    exact vertexLoop_error hrec

theorem iterFeatures_error {ctx : TransformCtx} {start : ℤ} {speed : ℚ} {ot : String}
    {fs : List Feature} :
    ∀ {x : ℕ} {fs' : List Feature} {e : PyErr},
    iterFeatures ctx start speed ot x fs = (fs', Except.error e) →
    ∃ a b, get_distance ctx a b = Except.error e := by
  induction fs with
  | nil =>
    intro x fs' e h
    simp only [iterFeatures] at h
    injection h with h1 h2
    exact Except.noConfusion h2
  | cons f rest ih =>
    intro x fs' e h
    simp only [iterFeatures] at h
    rcases hpc : processCoords ctx speed (featureTime start speed x f) f.rings.flatten
      with ⟨flat', r⟩
    rw [hpc] at h
    dsimp only at h
    cases r with
    | error e' =>
      injection h with h1 h2
      injection h2 with h2
      subst h2
      exact processCoords_error hpc
    | ok tf =>
      rcases hit : iterFeatures ctx start speed ot (x + 1) rest with ⟨rest', rr⟩
      rw [hit] at h
      dsimp only at h
      cases rr with
      | error e' =>
        injection h with h1 h2
        injection h2 with h2
        subst h2
        exact ih hit
      | ok outs' =>
        injection h with h1 h2
        exact Except.noConfusion h2

/-! ## Characterization of the feature loop on success -/

theorem outOf_singleton {ot : String} (hot : ot = "json" ∨ ot = "waypoints")
    (c : List Vertex) : ∃ o, outOf ot c = [o] := by
  rcases hot with rfl | rfl
  · exact ⟨.jsonFeature c, by simp [outOf]⟩
  · exact ⟨.waypoints (waypointsOf c), by simp [outOf]⟩

theorem iterFeatures_ok_spec {ctx : TransformCtx} {start : ℤ} {speed : ℚ} {ot : String}
    (hot : ot = "json" ∨ ot = "waypoints") {fs : List Feature} :
    ∀ {x : ℕ} {fs' : List Feature} {outs : List OutFeature},
    iterFeatures ctx start speed ot x fs = (fs', Except.ok outs) →
    fs'.length = fs.length ∧ outs.length = fs.length ∧
    ∀ k, k < fs.length →
      ∃ flat' tf,
        processCoords ctx speed (featureTime start speed (x + k) (fs.getD k dFeat))
            ((fs.getD k dFeat).rings.flatten) = (flat', Except.ok tf) ∧
        fs'.getD k dFeat =
          ⟨(fs.getD k dFeat).distance,
            splitByLens ((fs.getD k dFeat).rings.map List.length) flat'⟩ ∧
        outs.getD k dOut = (outOf ot flat').getD 0 dOut := by
  induction fs with
  | nil =>
    intro x fs' outs h
    simp only [iterFeatures] at h
    injection h with h1 h2
    injection h2 with h2
    subst h1
    subst h2
    exact ⟨rfl, rfl, fun k hk => absurd hk (by simp)⟩
  | cons f rest ih =>
    intro x fs' outs h
    simp only [iterFeatures] at h
    rcases hpc : processCoords ctx speed (featureTime start speed x f) f.rings.flatten
      with ⟨flat', r⟩
    rw [hpc] at h
    dsimp only at h
    cases r with
    | error e =>
      injection h with h1 h2
      exact Except.noConfusion h2
    | ok tf =>
      rcases hit : iterFeatures ctx start speed ot (x + 1) rest with ⟨rest', rr⟩
      rw [hit] at h
      dsimp only at h
      cases rr with
      | error e =>
        injection h with h1 h2
        exact Except.noConfusion h2
      | ok outs' =>
        injection h with h1 h2
        injection h2 with h2
        subst h1
        subst h2
        obtain ⟨hl1, hl2, hk⟩ := ih hit
        obtain ⟨o, ho⟩ := outOf_singleton hot flat'
        refine ⟨by simp [hl1], by rw [ho]; simp [hl2], fun k hk' => ?_⟩
        cases k with
        | zero =>
          refine ⟨flat', tf, by simpa using hpc, by simp, ?_⟩
          rw [ho]
          rfl
        | succ j =>
          obtain ⟨flat'', tf', hpc', hf', hout'⟩ := hk j (by simpa using hk')
          have hx : x + 1 + j = x + (j + 1) := by omega
          rw [hx] at hpc'
          refine ⟨flat'', tf', by simpa using hpc', by simpa using hf', ?_⟩
          rw [ho]
          simpa using hout'

/-! ## Lemmas about `generate_trips` -/

theorem applyOverrides_none (st : TripState) : applyOverrides st none none = st := rfl

theorem applyOverrides_zero (st : TripState) :
    applyOverrides st (some 0) (some 0) = st := by
  simp [applyOverrides]

theorem generate_trips_fst (ctx : TransformCtx) (st : TripState) (ot : String)
    (o₁ : Option ℤ) (o₂ : Option ℚ) :
    ((generate_trips ctx st ot o₁ o₂).1).start_time = (applyOverrides st o₁ o₂).start_time ∧
    ((generate_trips ctx st ot o₁ o₂).1).m_per_second =
      (applyOverrides st o₁ o₂).m_per_second := by
  unfold generate_trips json_iterator
  by_cases h1 : ot = "json"
  · rcases hit : iterFeatures ctx (applyOverrides st o₁ o₂).start_time
        (applyOverrides st o₁ o₂).m_per_second "json" 0 (applyOverrides st o₁ o₂).features
      with ⟨fs', r⟩
    simp [h1, hit]
  · by_cases h2 : ot = "waypoints"
    · rcases hit : iterFeatures ctx (applyOverrides st o₁ o₂).start_time
          (applyOverrides st o₁ o₂).m_per_second "waypoints" 0
          (applyOverrides st o₁ o₂).features
        with ⟨fs', r⟩
      simp [h1, h2, hit]
    · simp [h1, h2]

theorem generate_trips_waypoints_ok {ctx : TransformCtx} {st st' : TripState}
    {out : TripOutput}
    (h : generate_trips ctx st "waypoints" none none = (st', Except.ok out)) :
    ∃ outs, out = TripOutput.waypointList outs ∧
      iterFeatures ctx st.start_time st.m_per_second "waypoints" 0 st.features =
        (st'.features, Except.ok outs) ∧
      st'.start_time = st.start_time ∧ st'.m_per_second = st.m_per_second := by
  unfold generate_trips at h
  rw [applyOverrides_none, if_neg (by decide), if_pos rfl] at h
  unfold json_iterator at h
  rcases hit : iterFeatures ctx st.start_time st.m_per_second "waypoints" 0 st.features
    with ⟨fs', r⟩
  rw [hit] at h
  dsimp only at h
  cases r with
  | error e => injection h with h1 h2; exact Except.noConfusion h2
  | ok outs =>
    injection h with h1 h2
    injection h2 with h2
    subst h2
    subst h1
    exact ⟨outs, rfl, rfl, rfl, rfl⟩

theorem generate_trips_json_ok {ctx : TransformCtx} {st st' : TripState}
    {out : TripOutput}
    (h : generate_trips ctx st "json" none none = (st', Except.ok out)) :
    ∃ outs, out = TripOutput.featureCollection outs ∧
      iterFeatures ctx st.start_time st.m_per_second "json" 0 st.features =
        (st'.features, Except.ok outs) ∧
      st'.start_time = st.start_time ∧ st'.m_per_second = st.m_per_second := by
  unfold generate_trips at h
  rw [applyOverrides_none, if_pos rfl] at h
  unfold json_iterator at h
  rcases hit : iterFeatures ctx st.start_time st.m_per_second "json" 0 st.features
    with ⟨fs', r⟩
  rw [hit] at h
  dsimp only at h
  cases r with
  | error e => injection h with h1 h2; exact Except.noConfusion h2
  | ok outs =>
    injection h with h1 h2
    injection h2 with h2
    subst h2
    subst h1
    exact ⟨outs, rfl, rfl, rfl, rfl⟩

/-! ## Waypoint extraction lemmas -/

theorem set_coords_getD : ∀ (coords : List Vertex) (i : ℕ), i < coords.length →
    (set_coords coords).getD i dWp =
      ⟨[(coords.getD i []).getD 0 0, (coords.getD i []).getD 1 0],
        (coords.getD i []).getD 2 0⟩
  | [], i, hi => absurd hi (by simp)
  | c :: cs, 0, _ => rfl
  | c :: cs, i + 1, hi => set_coords_getD cs i (by simpa using hi)

theorem set_coords_length (coords : List Vertex) :
    (set_coords coords).length = coords.length := by
  simp [set_coords]

theorem zipApp_map_take : ∀ (cs : List Vertex) (ts : List ℤ),
    (∀ v ∈ cs, v.length = 2) → ts.length = cs.length →
    (zipApp cs ts).map (fun v => v.take 2) = cs
  | [], _, _, _ => rfl
  | c :: cs, [], _, ht => absurd ht (by simp)
  | c :: cs, t :: ts, hl, ht => by
    have h1 : (c ++ [((t : ℤ) : ℚ)]).take 2 = c := append_take_two (hl c (by simp)) _
    have h2 := zipApp_map_take cs ts (fun v hv => hl v (by simp [hv])) (by simpa using ht)
    show (c ++ [((t : ℤ) : ℚ)]).take 2 :: (zipApp cs ts).map (fun v => v.take 2) = c :: cs
    rw [h1, h2]

theorem zipApp_set_coords_coordinates : ∀ (cs : List Vertex) (ts : List ℤ),
    (∀ v ∈ cs, v.length = 2) → ts.length = cs.length →
    (set_coords (zipApp cs ts)).map Waypoint.coordinates = cs
  | [], _, _, _ => rfl
  | c :: cs, [], _, ht => absurd ht (by simp)
  | c :: cs, t :: ts, hl, ht => by
    have h1 : [(c ++ [((t : ℤ) : ℚ)]).getD 0 0, (c ++ [((t : ℤ) : ℚ)]).getD 1 0] = c :=
      coords_append (hl c (by simp)) _
    have h2 := zipApp_set_coords_coordinates cs ts (fun v hv => hl v (by simp [hv]))
      (by simpa using ht)
    show [(c ++ [((t : ℤ) : ℚ)]).getD 0 0, (c ++ [((t : ℤ) : ℚ)]).getD 1 0] ::
        (set_coords (zipApp cs ts)).map Waypoint.coordinates = c :: cs
    rw [h1, h2]

theorem getD_mem_of_lt {α : Type} : ∀ (l : List α) (i : ℕ) (d : α), i < l.length → l.getD i d ∈ l
  | a :: l, 0, d, _ => by simp
  | a :: l, i + 1, d, h => by
    rw [List.getD_cons_succ]
    exact List.mem_cons_of_mem a (getD_mem_of_lt l i d (by simpa using h))

theorem getD2_append {v : Vertex} (hv : v.length = 2) (q : ℚ) :
    (v ++ [q]).getD 2 0 = q := by
  obtain ⟨a, b, rfl⟩ := List.length_eq_two.mp hv
  rfl

/-- The first waypoint of the `k`-th emitted `WaypointSequence` carries the
seed clock `featureTime` of the `k`-th feature. -/
theorem generate_firstTs {ctx : TransformCtx} {st st' : TripState} {out : TripOutput}
    {k : ℕ}
    (hk : k < st.features.length)
    (hne : (st.features.getD k dFeat).rings.flatten ≠ [])
    (hlen : ∀ v ∈ (st.features.getD k dFeat).rings.flatten, v.length = 2)
    (h : generate_trips ctx st "waypoints" none none = (st', Except.ok out)) :
    ∃ outs wps, out = TripOutput.waypointList outs ∧
      outs.getD k dOut = OutFeature.waypoints (some wps) ∧
      (wps.getD 0 dWp).timestamp =
        ((featureTime st.start_time st.m_per_second k (st.features.getD k dFeat) : ℤ) : ℚ) := by
  obtain ⟨outs, rfl, hit, _, _⟩ := generate_trips_waypoints_ok h
  obtain ⟨hl1, hl2, hkk⟩ := iterFeatures_ok_spec (Or.inr rfl) hit
  obtain ⟨flat', tf, hpc, hf', hout⟩ := hkk k hk
  rw [Nat.zero_add] at hpc
  obtain ⟨tsAll, htimes, rfl⟩ :=
    processCoords_ok (fun v hv => le_of_eq (hlen v hv).symm) hpc
  obtain ⟨hlenTs, hhead, _⟩ := timesAll_spec htimes
  have hne' : ¬ (st.features.getD k dFeat).rings.flatten.length = 0 :=
    fun h0 => hne (List.length_eq_zero.mp h0)
  have hlenz : (zipApp ((st.features.getD k dFeat).rings.flatten) tsAll).length =
      (st.features.getD k dFeat).rings.flatten.length := zipApp_length hlenTs
  have hzne : ¬ (zipApp ((st.features.getD k dFeat).rings.flatten) tsAll).isEmpty := by
    rw [List.isEmpty_iff_length_eq_zero, hlenz]
    exact hne'
  have hwp : waypointsOf (zipApp ((st.features.getD k dFeat).rings.flatten) tsAll) =
      some (set_coords (zipApp ((st.features.getD k dFeat).rings.flatten) tsAll)) := by
    rw [waypointsOf, if_neg hzne]
  refine ⟨outs, set_coords (zipApp ((st.features.getD k dFeat).rings.flatten) tsAll),
    rfl, ?_, ?_⟩
  · rw [hout]
    have houtOf : ∀ (L : List Vertex) (W : List Waypoint), waypointsOf L = some W →
        (outOf "waypoints" L).getD 0 dOut = OutFeature.waypoints (some W) := by
      intro L W hW
      simp [outOf, hW]
    exact houtOf _ _ hwp
  · have hb : 0 < (st.features.getD k dFeat).rings.flatten.length := by omega
    have hb2 : 0 < tsAll.length := by rw [hlenTs]; exact hb
    rw [set_coords_getD _ 0 (by rw [hlenz]; exact hb)]
    dsimp only
    rw [zipApp_getD _ _ 0 hb hb2]
    have hv2 : ((st.features.getD k dFeat).rings.flatten.getD 0 []).length = 2 :=
      hlen _ (getD_mem_of_lt _ 0 [] hb)
    rw [getD2_append hv2, hhead, if_neg hne]

/-! ## Claim theorems -/

/-- C1: Distance-time integration recurrence: for every path and every vertex
index `i ≥ 1`, the emitted timestamp at vertex `i` equals the timestamp at
vertex `i-1` plus the planar length between the reprojections of vertices
`i-1` and `i` divided by `speed`, truncated (not rounded) toward zero to an
integer; a hop shorter than one time unit of travel (`d < speed`)
contributes zero elapsed time. -/
theorem C1_integration_recurrence
    (ctx : TransformCtx) (speed : ℚ) (t0 : ℤ)
    (coords coords' : List Vertex) (tf : ℤ)
    (hlen : ∀ v ∈ coords, v.length = 2)
    (hspeed : 0 < speed)
    (h : processCoords ctx speed t0 coords = (coords', Except.ok tf))
    (i : ℕ) (hi : i + 1 < coords.length) :
    ∃ d : ℚ, get_distance ctx (coords.getD i []) (coords.getD (i + 1) []) = Except.ok d ∧
      tsOf (coords'.getD (i + 1) []) =
        tsOf (coords'.getD i []) + ((pyInt (d / speed) : ℤ) : ℚ) ∧
      (0 ≤ d → d < speed → tsOf (coords'.getD (i + 1) []) = tsOf (coords'.getD i [])) := by
  obtain ⟨tsAll, htimes, rfl⟩ :=
    processCoords_ok (fun v hv => le_of_eq (hlen v hv).symm) h
  obtain ⟨hlenTs, _, hrec⟩ := timesAll_spec htimes
  obtain ⟨d, hd, hts⟩ := hrec i hi
  have hi' : i < coords.length := by omega
  have hti : i < tsAll.length := by omega
  have hti1 : i + 1 < tsAll.length := by omega
  have hmain : tsOf ((zipApp coords tsAll).getD (i + 1) []) =
      tsOf ((zipApp coords tsAll).getD i []) + ((pyInt (d / speed) : ℤ) : ℚ) := by
    rw [zipApp_getD _ _ (i + 1) hi hti1, zipApp_getD _ _ i hi' hti,
      tsOf_append (hlen _ (getD_mem_of_lt _ _ [] hi)),
      tsOf_append (hlen _ (getD_mem_of_lt _ _ [] hi')), hts]
    push_cast
    ring
  refine ⟨d, hd, hmain, fun h0 h1 => ?_⟩
  rw [hmain, pyInt_eq_zero (div_nonneg h0 hspeed.le) ((div_lt_one hspeed).mpr h1)]
  simp

/-- Witness for C1 at a concrete input: path `[[0,0],[0,100],[0,105]]`,
speed 10, start 0 gives timestamps `[0, 10, 10]` (the 5-unit hop is below
one time unit and contributes zero). -/
theorem C1_integration_recurrence_witness :
    ∃ d : ℚ, get_distance exCtx
        (([[0, 0], [0, 100], [0, 105]] : List Vertex).getD 1 [])
        (([[0, 0], [0, 100], [0, 105]] : List Vertex).getD (1 + 1) []) = Except.ok d ∧
      tsOf (([[0, 0, 0], [0, 100, 10], [0, 105, 10]] : List Vertex).getD (1 + 1) []) =
        tsOf (([[0, 0, 0], [0, 100, 10], [0, 105, 10]] : List Vertex).getD 1 []) +
          ((pyInt (d / 10) : ℤ) : ℚ) ∧
      (0 ≤ d → d < 10 →
        tsOf (([[0, 0, 0], [0, 100, 10], [0, 105, 10]] : List Vertex).getD (1 + 1) []) =
          tsOf (([[0, 0, 0], [0, 100, 10], [0, 105, 10]] : List Vertex).getD 1 [])) :=
  C1_integration_recurrence exCtx 10 0 [[0, 0], [0, 100], [0, 105]]
    [[0, 0, 0], [0, 100, 10], [0, 105, 10]] 10
    (by decide) (by decide) (by decide) 1 (by decide)

/-- C2 (counterexample): with two paths of identical offset `distance = 100`
(speed 10, start 0), the pipeline emits first-vertex timestamps `0` and `10`:
the path at input index 0 is seeded with `start_time` alone, not with
`start_time + floor(offset / speed) = 10`, so the claimed rule fails for it
and input order does matter. -/
theorem C2_per_path_start_counterexample :
    (generate_trips exCtx exSt2 "waypoints" none none).2 =
      Except.ok (TripOutput.waypointList
        [OutFeature.waypoints (some [⟨[0, 0], 0⟩, ⟨[0, 10], 1⟩]),
         OutFeature.waypoints (some [⟨[0, 0], 10⟩, ⟨[0, 10], 11⟩])]) ∧
    (exSt2.features.getD 0 dFeat).distance = (exSt2.features.getD 1 dFeat).distance ∧
    ((exSt2.start_time + ⌊(exSt2.features.getD 0 dFeat).distance / exSt2.m_per_second⌋ : ℤ) : ℚ)
      = 10 ∧
    ((0 : ℚ) ≠ 10) :=
  ⟨by decide, by decide, by decide, by decide⟩

/-- C2 (amended): the first-vertex timestamp of the path at input index
`k ≥ 1` is `global_start_time + floor(path_offset_distance / speed_m_per_s)`
(for a nonnegative start, nonnegative offset and positive speed), but the
path at index 0 is seeded with `global_start_time` alone, its offset
ignored; the claimed rule therefore holds only from index 1 on. -/
theorem C2_per_path_start_amended
    (ctx : TransformCtx) (st st' : TripState) (out : TripOutput) (k : ℕ)
    (hk : k < st.features.length)
    (hne : (st.features.getD k dFeat).rings.flatten ≠ [])
    (hlen : ∀ v ∈ (st.features.getD k dFeat).rings.flatten, v.length = 2)
    (hstart : 0 ≤ st.start_time)
    (hoff : 0 ≤ (st.features.getD k dFeat).distance)
    (hspeed : 0 < st.m_per_second)
    (h : generate_trips ctx st "waypoints" none none = (st', Except.ok out)) :
    ∃ outs wps, out = TripOutput.waypointList outs ∧
      outs.getD k dOut = OutFeature.waypoints (some wps) ∧
      (wps.getD 0 dWp).timestamp =
        if k = 0 then ((st.start_time : ℤ) : ℚ)
        else ((st.start_time +
          ⌊(st.features.getD k dFeat).distance / st.m_per_second⌋ : ℤ) : ℚ) := by
  obtain ⟨outs, wps, rfl, hout, hts⟩ := generate_firstTs hk hne hlen h
  refine ⟨outs, wps, rfl, hout, ?_⟩
  rw [hts, featureTime]
  by_cases hk0 : k = 0
  · rw [if_pos hk0, if_pos hk0]
  · rw [if_neg hk0, if_neg hk0]
    have hq : 0 ≤ (st.features.getD k dFeat).distance / st.m_per_second :=
      div_nonneg hoff hspeed.le
    have hn : 0 ≤ (st.start_time : ℚ) +
        (st.features.getD k dFeat).distance / st.m_per_second :=
      add_nonneg (by exact_mod_cast hstart) hq
    rw [pyInt_intCast_add hn]

/-- Witness for the amended C2: two single-vertex paths, the second with
offset 20 (speed 10, start 0); its starting timestamp is
`0 + floor(20 / 10) = 2`. -/
theorem C2_per_path_start_amended_witness :
    ∃ outs wps,
      TripOutput.waypointList
          [OutFeature.waypoints (some [⟨[0, 0], (0 : ℚ)⟩]),
           OutFeature.waypoints (some [⟨[1, 1], (2 : ℚ)⟩])] =
        TripOutput.waypointList outs ∧
      outs.getD 1 dOut = OutFeature.waypoints (some wps) ∧
      (wps.getD 0 dWp).timestamp =
        if (1 : ℕ) = 0 then (((0 : ℤ) : ℤ) : ℚ)
        else (((0 : ℤ) + ⌊(20 : ℚ) / 10⌋ : ℤ) : ℚ) :=
  C2_per_path_start_amended exCtx exStB
    ⟨[⟨0, [[[0, 0, 0]]]⟩, ⟨20, [[[1, 1, 2]]]⟩], 0, 10⟩
    (TripOutput.waypointList
      [OutFeature.waypoints (some [⟨[0, 0], 0⟩]),
       OutFeature.waypoints (some [⟨[1, 1], 2⟩])])
    1 (by decide) (by decide) (by decide) (by decide) (by decide) (by decide) (by decide)

/-- C3: within every emitted `WaypointSequence`, timestamps are
non-decreasing in vertex order (given a positive speed and the planar
length routine being nonnegative), and two consecutive vertices whose
planar reprojections coincide receive equal consecutive timestamps. -/
theorem C3_monotone_timestamps
    (ctx : TransformCtx) (speed : ℚ) (t0 : ℤ)
    (coords coords' : List Vertex) (tf : ℤ) (wps : List Waypoint)
    (hlen : ∀ v ∈ coords, v.length = 2)
    (hspeed : 0 < speed)
    (hL : ∀ p q, 0 ≤ ctx.lineLength p q)
    (hL0 : ∀ p, ctx.lineLength p p = 0)
    (h : processCoords ctx speed t0 coords = (coords', Except.ok tf))
    (hw : waypointsOf coords' = some wps) :
    (∀ i, i + 1 < wps.length →
      (wps.getD i dWp).timestamp ≤ (wps.getD (i + 1) dWp).timestamp) ∧
    (∀ i pt, i + 1 < coords.length →
      ctx.transform ((coords.getD i []).getD 1 0) ((coords.getD i []).getD 0 0) =
        Except.ok pt →
      ctx.transform ((coords.getD (i + 1) []).getD 1 0) ((coords.getD (i + 1) []).getD 0 0) =
        Except.ok pt →
      (wps.getD (i + 1) dWp).timestamp = (wps.getD i dWp).timestamp) := by
  obtain ⟨tsAll, htimes, rfl⟩ :=
    processCoords_ok (fun v hv => le_of_eq (hlen v hv).symm) h
  obtain ⟨hlenTs, _, hrec⟩ := timesAll_spec htimes
  rw [waypointsOf] at hw
  have hwps : wps = set_coords (zipApp coords tsAll) := by
    rcases hzz : (zipApp coords tsAll).isEmpty with hF | hT
    · rw [hzz, if_neg (by simp)] at hw
      exact (Option.some.inj hw).symm
    · rw [hzz, if_pos rfl] at hw
      exact Option.noConfusion hw
  have hzl : (zipApp coords tsAll).length = coords.length := zipApp_length hlenTs
  have hts : ∀ i, i < coords.length →
      (wps.getD i dWp).timestamp = ((tsAll.getD i 0 : ℤ) : ℚ) := by
    intro i hi
    rw [hwps, set_coords_getD _ i (by rw [hzl]; exact hi)]
    dsimp only
    rw [zipApp_getD _ _ i hi (by omega), getD2_append (hlen _ (getD_mem_of_lt _ _ [] hi))]
  have hwl : wps.length = coords.length := by
    rw [hwps, set_coords_length, hzl]
  constructor
  · intro i hi
    have hi' : i + 1 < coords.length := by rw [← hwl]; exact hi
    rw [hts i (by omega), hts (i + 1) hi']
    obtain ⟨d, hd, hrec'⟩ := hrec i hi'
    rw [hrec']
    have h0d : 0 ≤ d := get_distance_ok_nonneg hL hd
    have : 0 ≤ pyInt (d / speed) := pyInt_nonneg (div_nonneg h0d hspeed.le)
    exact_mod_cast le_add_of_nonneg_right this
  · intro i pt hi htr1 htr2
    obtain ⟨d, hd, hrec'⟩ := hrec i hi
    have hgd : get_distance ctx (coords.getD i []) (coords.getD (i + 1) []) =
        Except.ok (ctx.lineLength (pt.2, pt.1) (pt.2, pt.1)) :=
      get_distance_of_transforms htr2 htr1
    rw [hL0] at hgd
    have hd0 : d = 0 := Except.ok.inj (hd.symm.trans hgd)
    rw [hts (i + 1) hi, hts i (by omega), hrec', hd0, zero_div, pyInt_zero, add_zero]

/-- Witness for C3: path `[[0,0],[0,100],[0,100]]` (speed 10, start 0)
yields timestamps `[0, 10, 10]` — non-decreasing, with the duplicated
vertex receiving an equal timestamp. -/
theorem C3_monotone_timestamps_witness :
    (∀ i, i + 1 < ([⟨[0, 0], (0 : ℚ)⟩, ⟨[0, 100], 10⟩, ⟨[0, 100], 10⟩] :
        List Waypoint).length →
      (([⟨[0, 0], (0 : ℚ)⟩, ⟨[0, 100], 10⟩, ⟨[0, 100], 10⟩] :
          List Waypoint).getD i dWp).timestamp ≤
        (([⟨[0, 0], (0 : ℚ)⟩, ⟨[0, 100], 10⟩, ⟨[0, 100], 10⟩] :
          List Waypoint).getD (i + 1) dWp).timestamp) ∧
    (∀ i pt, i + 1 < ([[0, 0], [0, 100], [0, 100]] : List Vertex).length →
      exCtx.transform ((([[0, 0], [0, 100], [0, 100]] : List Vertex).getD i []).getD 1 0)
          ((([[0, 0], [0, 100], [0, 100]] : List Vertex).getD i []).getD 0 0) =
        Except.ok pt →
      exCtx.transform
          ((([[0, 0], [0, 100], [0, 100]] : List Vertex).getD (i + 1) []).getD 1 0)
          ((([[0, 0], [0, 100], [0, 100]] : List Vertex).getD (i + 1) []).getD 0 0) =
        Except.ok pt →
      (([⟨[0, 0], (0 : ℚ)⟩, ⟨[0, 100], 10⟩, ⟨[0, 100], 10⟩] :
          List Waypoint).getD (i + 1) dWp).timestamp =
        (([⟨[0, 0], (0 : ℚ)⟩, ⟨[0, 100], 10⟩, ⟨[0, 100], 10⟩] :
          List Waypoint).getD i dWp).timestamp) :=
  C3_monotone_timestamps exCtx 10 0 [[0, 0], [0, 100], [0, 100]]
    [[0, 0, 0], [0, 100, 10], [0, 100, 10]] 10
    [⟨[0, 0], 0⟩, ⟨[0, 100], 10⟩, ⟨[0, 100], 10⟩]
    (by decide) (by decide)
    (fun p q => add_nonneg (abs_nonneg _) (abs_nonneg _))
    (fun p => by simp [exCtx])
    (by decide) (by decide)

/-- C4 (counterexample): two paths whose boundary vertices coincide at
`[0, 100]` (both offsets 0, speed 10, start 0): the first path ends at
timestamp 10, yet the second path's first timestamp is 0 — the clock does
not continue across paths, leaving a gap the claim rules out. -/
theorem C4_clock_continuity_counterexample :
    (generate_trips exCtx exStA "waypoints" none none).2 =
      Except.ok (TripOutput.waypointList
        [OutFeature.waypoints (some [⟨[0, 0], 0⟩, ⟨[0, 100], 10⟩]),
         OutFeature.waypoints (some [⟨[0, 100], 0⟩, ⟨[0, 0], 10⟩])]) ∧
    (exStA.features.getD 0 dFeat).rings.flatten.getD 1 [] =
      (exStA.features.getD 1 dFeat).rings.flatten.getD 0 [] ∧
    ((0 : ℚ) ≠ 10) :=
  ⟨by decide, by decide, by decide⟩

/-- C4 (amended): no clock continuation exists: every path at input index
`k ≥ 1` is seeded with `int(start_time + offset_k / speed)` computed from
its own offset alone, independently of the preceding paths' vertices and
final clock values — two runs that agree on `start_time`, speed and the
`k`-th feature give that feature the same starting timestamp no matter
what precedes it, so coincident boundary vertices do not make path `k`'s
first timestamp equal path `k-1`'s last one. -/
theorem C4_no_clock_continuation
    (ctx₁ ctx₂ : TransformCtx) (st₁ st₂ st₁' st₂' : TripState)
    (out₁ out₂ : TripOutput) (k₁ k₂ : ℕ)
    (hst : st₁.start_time = st₂.start_time)
    (hsp : st₁.m_per_second = st₂.m_per_second)
    (hf : st₁.features.getD k₁ dFeat = st₂.features.getD k₂ dFeat)
    (hk₁ : k₁ < st₁.features.length) (hk₂ : k₂ < st₂.features.length)
    (h1p : 1 ≤ k₁) (h2p : 1 ≤ k₂)
    (hne : (st₁.features.getD k₁ dFeat).rings.flatten ≠ [])
    (hlen : ∀ v ∈ (st₁.features.getD k₁ dFeat).rings.flatten, v.length = 2)
    (h₁ : generate_trips ctx₁ st₁ "waypoints" none none = (st₁', Except.ok out₁))
    (h₂ : generate_trips ctx₂ st₂ "waypoints" none none = (st₂', Except.ok out₂)) :
    ∃ outs₁ wps₁ outs₂ wps₂,
      out₁ = TripOutput.waypointList outs₁ ∧ out₂ = TripOutput.waypointList outs₂ ∧
      outs₁.getD k₁ dOut = OutFeature.waypoints (some wps₁) ∧
      outs₂.getD k₂ dOut = OutFeature.waypoints (some wps₂) ∧
      (wps₁.getD 0 dWp).timestamp =
        ((pyInt ((st₁.start_time : ℚ) +
          (st₁.features.getD k₁ dFeat).distance / st₁.m_per_second) : ℤ) : ℚ) ∧
      (wps₂.getD 0 dWp).timestamp = (wps₁.getD 0 dWp).timestamp := by
  have hne₂ : (st₂.features.getD k₂ dFeat).rings.flatten ≠ [] := by
    rw [← hf]; exact hne
  have hlen₂ : ∀ v ∈ (st₂.features.getD k₂ dFeat).rings.flatten, v.length = 2 := by
    rw [← hf]; exact hlen
  obtain ⟨outs₁, wps₁, rfl, ho₁, hts₁⟩ := generate_firstTs hk₁ hne hlen h₁
  obtain ⟨outs₂, wps₂, rfl, ho₂, hts₂⟩ := generate_firstTs hk₂ hne₂ hlen₂ h₂
  refine ⟨outs₁, wps₁, outs₂, wps₂, rfl, rfl, ho₁, ho₂, ?_, ?_⟩
  · rw [hts₁, featureTime, if_neg (by omega)]
  · rw [hts₁, hts₂, featureTime, featureTime, if_neg (by omega), if_neg (by omega),
      hst, hsp, hf]

/-- Witness for the amended C4: the same two-path batch processed twice;
the second path (offset 20, speed 10, start 0) starts at
`int(0 + 20 / 10) = 2` in both runs. -/
theorem C4_no_clock_continuation_witness :
    ∃ outs₁ wps₁ outs₂ wps₂,
      TripOutput.waypointList
          [OutFeature.waypoints (some [⟨[0, 0], (0 : ℚ)⟩]),
           OutFeature.waypoints (some [⟨[1, 1], (2 : ℚ)⟩])] =
        TripOutput.waypointList outs₁ ∧
      TripOutput.waypointList
          [OutFeature.waypoints (some [⟨[0, 0], (0 : ℚ)⟩]),
           OutFeature.waypoints (some [⟨[1, 1], (2 : ℚ)⟩])] =
        TripOutput.waypointList outs₂ ∧
      outs₁.getD 1 dOut = OutFeature.waypoints (some wps₁) ∧
      outs₂.getD 1 dOut = OutFeature.waypoints (some wps₂) ∧
      (wps₁.getD 0 dWp).timestamp =
        ((pyInt (((0 : ℤ) : ℚ) + (20 : ℚ) / 10) : ℤ) : ℚ) ∧
      (wps₂.getD 0 dWp).timestamp = (wps₁.getD 0 dWp).timestamp :=
  C4_no_clock_continuation exCtx exCtx exStB exStB
    ⟨[⟨0, [[[0, 0, 0]]]⟩, ⟨20, [[[1, 1, 2]]]⟩], 0, 10⟩
    ⟨[⟨0, [[[0, 0, 0]]]⟩, ⟨20, [[[1, 1, 2]]]⟩], 0, 10⟩
    (TripOutput.waypointList
      [OutFeature.waypoints (some [⟨[0, 0], 0⟩]),
       OutFeature.waypoints (some [⟨[1, 1], 2⟩])])
    (TripOutput.waypointList
      [OutFeature.waypoints (some [⟨[0, 0], 0⟩]),
       OutFeature.waypoints (some [⟨[1, 1], 2⟩])])
    1 1 rfl rfl rfl (by decide) (by decide) (by decide) (by decide) (by decide)
    (by decide) (by decide) (by decide)

/-- C5: coordinate round-trip: under both output shapes, stripping the
timestamp from every output element (dropping the third ordinate of each
geometry tuple, or reading each Waypoint's `coordinates` field)
reproduces the original geographic coordinate pairs of that path exactly;
reprojected planar coordinates never appear in the output. -/
theorem C5_coordinate_roundtrip
    (ctx : TransformCtx) (st st' : TripState) (out : TripOutput) (ot : String)
    (hot : ot = "json" ∨ ot = "waypoints")
    (hlen : ∀ f ∈ st.features, ∀ v ∈ f.rings.flatten, v.length = 2)
    (h : generate_trips ctx st ot none none = (st', Except.ok out)) :
    ∃ outs,
      (out = TripOutput.featureCollection outs ∨ out = TripOutput.waypointList outs) ∧
      outs.length = st.features.length ∧
      ∀ k, k < st.features.length →
        stripOut (outs.getD k dOut) = (st.features.getD k dFeat).rings.flatten := by
  rcases hot with rfl | rfl
  · obtain ⟨outs, rfl, hit, _, _⟩ := generate_trips_json_ok h
    obtain ⟨hl1, hl2, hkk⟩ := iterFeatures_ok_spec (Or.inl rfl) hit
    refine ⟨outs, Or.inl rfl, hl2, fun k hk => ?_⟩
    have hlenk : ∀ v ∈ (st.features.getD k dFeat).rings.flatten, v.length = 2 :=
      hlen _ (getD_mem_of_lt _ k dFeat hk)
    obtain ⟨flat', tf, hpc, hf', hout⟩ := hkk k hk
    obtain ⟨tsAll, htimes, rfl⟩ :=
      processCoords_ok (fun v hv => le_of_eq (hlenk v hv).symm) hpc
    have hTl : tsAll.length = (st.features.getD k dFeat).rings.flatten.length :=
      (timesAll_spec htimes).1
    rw [hout]
    have hj : (outOf "json" (zipApp ((st.features.getD k dFeat).rings.flatten) tsAll)).getD
        0 dOut =
        OutFeature.jsonFeature (zipApp ((st.features.getD k dFeat).rings.flatten) tsAll) := by
      simp [outOf]
    rw [hj]
    exact zipApp_map_take _ _ hlenk hTl
  · obtain ⟨outs, rfl, hit, _, _⟩ := generate_trips_waypoints_ok h
    obtain ⟨hl1, hl2, hkk⟩ := iterFeatures_ok_spec (Or.inr rfl) hit
    refine ⟨outs, Or.inr rfl, hl2, fun k hk => ?_⟩
    have hlenk : ∀ v ∈ (st.features.getD k dFeat).rings.flatten, v.length = 2 :=
      hlen _ (getD_mem_of_lt _ k dFeat hk)
    obtain ⟨flat', tf, hpc, hf', hout⟩ := hkk k hk
    obtain ⟨tsAll, htimes, rfl⟩ :=
      processCoords_ok (fun v hv => le_of_eq (hlenk v hv).symm) hpc
    have hTl : tsAll.length = (st.features.getD k dFeat).rings.flatten.length :=
      (timesAll_spec htimes).1
    rw [hout]
    have hw : (outOf "waypoints" (zipApp ((st.features.getD k dFeat).rings.flatten)
        tsAll)).getD 0 dOut =
        OutFeature.waypoints
          (waypointsOf (zipApp ((st.features.getD k dFeat).rings.flatten) tsAll)) := by
      simp [outOf]
    rw [hw]
    rcases hE : (zipApp ((st.features.getD k dFeat).rings.flatten) tsAll).isEmpty with hF | hT
    · rw [waypointsOf, hE, if_neg (by simp)]
      exact zipApp_set_coords_coordinates _ _ hlenk hTl
    · have hz : zipApp ((st.features.getD k dFeat).rings.flatten) tsAll = [] := by
        rwa [List.isEmpty_iff] at hE
      have hfl : (st.features.getD k dFeat).rings.flatten = [] := by
        have := zipApp_length hTl
        rw [hz] at this
        exact List.length_eq_zero.mp this.symm
      rw [waypointsOf, hE, if_pos rfl, hfl]
      rfl

/-- Witness for C5 at a concrete input: one path `[[0,0],[0,100]]` under
the `"waypoints"` shape; stripping the timestamps gives back the input
pairs. -/
theorem C5_coordinate_roundtrip_witness :
    ∃ outs,
      (TripOutput.waypointList
          [OutFeature.waypoints (some [⟨[0, 0], (0 : ℚ)⟩, ⟨[0, 100], 10⟩])] =
        TripOutput.featureCollection outs ∨
       TripOutput.waypointList
          [OutFeature.waypoints (some [⟨[0, 0], (0 : ℚ)⟩, ⟨[0, 100], 10⟩])] =
        TripOutput.waypointList outs) ∧
      outs.length = exSt1.features.length ∧
      ∀ k, k < exSt1.features.length →
        stripOut (outs.getD k dOut) = (exSt1.features.getD k dFeat).rings.flatten :=
  C5_coordinate_roundtrip exCtx exSt1 ⟨[⟨0, [[[0, 0, 0], [0, 100, 10]]]⟩], 0, 10⟩
    (TripOutput.waypointList [OutFeature.waypoints (some [⟨[0, 0], 0⟩, ⟨[0, 100], 10⟩])])
    "waypoints" (Or.inr rfl) (by decide) (by decide)

/-- C6 (counterexample): the pipeline mutates its input: after a
successful `"waypoints"` run on a one-path collection, the stored feature
coordinates have changed from `[[0,0],[0,100]]` to
`[[0,0,0],[0,100,10]]` — each pair has gained its timestamp in place. -/
theorem C6_input_mutation_counterexample :
    (generate_trips exCtx exSt1 "waypoints" none none).1.features ≠ exSt1.features ∧
    (generate_trips exCtx exSt1 "waypoints" none none).2 =
      Except.ok (TripOutput.waypointList
        [OutFeature.waypoints (some [⟨[0, 0], 0⟩, ⟨[0, 100], 10⟩])]) ∧
    (generate_trips exCtx exSt1 "waypoints" none none).1.features =
      [⟨0, [[[0, 0, 0], [0, 100, 10]]]⟩] :=
  ⟨by decide, by decide, by decide⟩

/-- C6 (amended): the pipeline is not read-only on its input: on success
every stored coordinate pair of every feature is mutated by appending that
vertex's timestamp (the original two ordinates and the offsets are
preserved; the clock and speed attributes are untouched when no override
is supplied). -/
theorem C6_input_mutation_amended
    (ctx : TransformCtx) (st st' : TripState) (out : TripOutput) (ot : String)
    (hot : ot = "json" ∨ ot = "waypoints")
    (hlen : ∀ f ∈ st.features, ∀ v ∈ f.rings.flatten, v.length = 2)
    (h : generate_trips ctx st ot none none = (st', Except.ok out)) :
    st'.start_time = st.start_time ∧ st'.m_per_second = st.m_per_second ∧
    st'.features.length = st.features.length ∧
    ∀ k, k < st.features.length →
      (st'.features.getD k dFeat).distance = (st.features.getD k dFeat).distance ∧
      ∃ ts : List ℤ, ts.length = (st.features.getD k dFeat).rings.flatten.length ∧
        (st'.features.getD k dFeat).rings.flatten =
          zipApp ((st.features.getD k dFeat).rings.flatten) ts := by
  have main : ∀ outs, iterFeatures ctx st.start_time st.m_per_second ot 0 st.features =
      (st'.features, Except.ok outs) →
      st'.features.length = st.features.length ∧
      ∀ k, k < st.features.length →
        (st'.features.getD k dFeat).distance = (st.features.getD k dFeat).distance ∧
        ∃ ts : List ℤ, ts.length = (st.features.getD k dFeat).rings.flatten.length ∧
          (st'.features.getD k dFeat).rings.flatten =
            zipApp ((st.features.getD k dFeat).rings.flatten) ts := by
    intro outs hit
    obtain ⟨hl1, hl2, hkk⟩ := iterFeatures_ok_spec hot hit
    refine ⟨hl1, fun k hk => ?_⟩
    have hlenk : ∀ v ∈ (st.features.getD k dFeat).rings.flatten, v.length = 2 :=
      hlen _ (getD_mem_of_lt _ k dFeat hk)
    obtain ⟨flat', tf, hpc, hf', hout⟩ := hkk k hk
    obtain ⟨tsAll, htimes, rfl⟩ :=
      processCoords_ok (fun v hv => le_of_eq (hlenk v hv).symm) hpc
    have hTl : tsAll.length = (st.features.getD k dFeat).rings.flatten.length :=
      (timesAll_spec htimes).1
    have hsum : ((st.features.getD k dFeat).rings.map List.length).sum =
        (zipApp ((st.features.getD k dFeat).rings.flatten) tsAll).length := by
      rw [zipApp_length hTl, List.length_flatten]
    refine ⟨by rw [hf'], tsAll, hTl, ?_⟩
    rw [hf']
    exact splitByLens_flatten_full hsum
  rcases hot with rfl | rfl
  · obtain ⟨outs, rfl, hit, h1, h2⟩ := generate_trips_json_ok h
    obtain ⟨m1, m2⟩ := main outs hit
    exact ⟨h1, h2, m1, m2⟩
  · obtain ⟨outs, rfl, hit, h1, h2⟩ := generate_trips_waypoints_ok h
    obtain ⟨m1, m2⟩ := main outs hit
    exact ⟨h1, h2, m1, m2⟩

/-- Witness for the amended C6 at a concrete input. -/
theorem C6_input_mutation_amended_witness :
    (⟨[⟨0, [[[0, 0, 0], [0, 100, 10]]]⟩], 0, 10⟩ : TripState).start_time =
      exSt1.start_time ∧
    (⟨[⟨0, [[[0, 0, 0], [0, 100, 10]]]⟩], 0, 10⟩ : TripState).m_per_second =
      exSt1.m_per_second ∧
    (⟨[⟨0, [[[0, 0, 0], [0, 100, 10]]]⟩], 0, 10⟩ : TripState).features.length =
      exSt1.features.length ∧
    ∀ k, k < exSt1.features.length →
      ((⟨[⟨0, [[[0, 0, 0], [0, 100, 10]]]⟩], 0, 10⟩ : TripState).features.getD
          k dFeat).distance = (exSt1.features.getD k dFeat).distance ∧
      ∃ ts : List ℤ, ts.length = (exSt1.features.getD k dFeat).rings.flatten.length ∧
        ((⟨[⟨0, [[[0, 0, 0], [0, 100, 10]]]⟩], 0, 10⟩ : TripState).features.getD
            k dFeat).rings.flatten =
          zipApp ((exSt1.features.getD k dFeat).rings.flatten) ts :=
  C6_input_mutation_amended exCtx exSt1 ⟨[⟨0, [[[0, 0, 0], [0, 100, 10]]]⟩], 0, 10⟩
    (TripOutput.waypointList [OutFeature.waypoints (some [⟨[0, 0], 0⟩, ⟨[0, 100], 10⟩])])
    "waypoints" (Or.inr rfl) (by decide) (by decide)

/-! ## Helper lemmas for the error-handling claims -/

theorem applyOverrides_speed {st : TripState} {o₁ : Option ℤ} {s : ℚ} (hs : s ≠ 0) :
    (applyOverrides st o₁ (some s)).m_per_second = s := by
  unfold applyOverrides
  dsimp only
  rw [if_neg hs]

theorem applyOverrides_start {st : TripState} {o₂ : Option ℚ} {s : ℤ} (hs : s ≠ 0) :
    (applyOverrides st (some s) o₂).start_time = s := by
  unfold applyOverrides
  dsimp only
  rw [if_neg hs]
  rcases o₂ with _ | m
  · rfl
  · dsimp only
    by_cases hm : m = 0
    · rw [if_pos hm]
    · rw [if_neg hm]

theorem iterFeatures_error_transform {ctx : TransformCtx} {start : ℤ} {speed : ℚ}
    {ot : String} {fs : List Feature} {x : ℕ} {fs' : List Feature} {e : PyErr}
    (h : iterFeatures ctx start speed ot x fs = (fs', Except.error e)) :
    ∃ y x, ctx.transform y x = Except.error e := by
  obtain ⟨a, b, hab⟩ := iterFeatures_error h
  exact get_distance_error hab

theorem generate_trips_error_source {ctx : TransformCtx} {st : TripState} {ot : String}
    {o₁ : Option ℤ} {o₂ : Option ℚ} {e : PyErr}
    (h : (generate_trips ctx st ot o₁ o₂).2 = Except.error e) :
    e = PyErr.unboundLocal ∨ ∃ y x, ctx.transform y x = Except.error e := by
  unfold generate_trips json_iterator at h
  by_cases h1 : ot = "json"
  · rw [if_pos h1] at h
    rcases hit : iterFeatures ctx (applyOverrides st o₁ o₂).start_time
        (applyOverrides st o₁ o₂).m_per_second "json" 0 (applyOverrides st o₁ o₂).features
      with ⟨fs', r⟩
    rw [hit] at h
    dsimp only at h
    cases r with
    | error e' =>
      obtain rfl : e' = e := by
        dsimp only [Except.map] at h
        exact (Except.error.inj h)
      exact Or.inr (iterFeatures_error_transform hit)
    | ok outs => exact absurd h (by simp [Except.map])
  · rw [if_neg h1] at h
    by_cases h2 : ot = "waypoints"
    · rw [if_pos h2] at h
      rcases hit : iterFeatures ctx (applyOverrides st o₁ o₂).start_time
          (applyOverrides st o₁ o₂).m_per_second "waypoints" 0
          (applyOverrides st o₁ o₂).features
        with ⟨fs', r⟩
      rw [hit] at h
      dsimp only at h
      cases r with
      | error e' =>
        obtain rfl : e' = e := by
          dsimp only [Except.map] at h
          exact (Except.error.inj h)
        exact Or.inr (iterFeatures_error_transform hit)
      | ok outs => exact absurd h (by simp [Except.map])
    · rw [if_neg h2] at h
      exact Or.inl (Except.error.inj h).symm

/-! ## The error-handling claims -/

/-- C7 (counterexample): a negative supplied speed is not rejected: with
`m_per_second = -10` the pipeline succeeds, adopts the negative speed, and
emits timestamps (which even decrease) instead of raising any error. -/
theorem C7_invalid_speed_counterexample :
    generate_trips exCtx exSt1 "waypoints" none (some (-10)) =
      (⟨[⟨0, [[[0, 0, 0], [0, 100, -10]]]⟩], 0, -10⟩,
       Except.ok (TripOutput.waypointList
         [OutFeature.waypoints (some [⟨[0, 0], 0⟩, ⟨[0, 100], -10⟩])])) := by
  decide

/-- C7 (amended): no speed validation exists: a negative override is
adopted and used for the computation, and whatever the run does it never
produces an `InvalidSpeedError` — the only failures are reprojection
errors from the transform and the unbound `output` variable.  (A supplied
speed of `0` is falsy and is silently ignored, keeping the stored value.) -/
theorem C7_no_speed_validation
    (ctx : TransformCtx) (st : TripState) (ot : String) (o₁ : Option ℤ) (s : ℚ)
    (hs : s < 0)
    (hctx : ∀ y x e, ctx.transform y x = Except.error e → e = PyErr.reprojection) :
    ((generate_trips ctx st ot o₁ (some s)).1).m_per_second = s ∧
    ∀ e, (generate_trips ctx st ot o₁ (some s)).2 = Except.error e →
      e ≠ PyErr.invalidSpeed := by
  constructor
  · rw [(generate_trips_fst ctx st ot o₁ (some s)).2, applyOverrides_speed (ne_of_lt hs)]
  · intro e he
    rcases generate_trips_error_source he with rfl | ⟨y, x, hyx⟩
    · decide
    · rw [hctx y x e hyx]
      decide

/-- Witness for the amended C7 at speed `-10`. -/
theorem C7_no_speed_validation_witness :
    ((generate_trips exCtx exSt1 "waypoints" none (some (-10))).1).m_per_second = -10 ∧
    ∀ e, (generate_trips exCtx exSt1 "waypoints" none (some (-10))).2 = Except.error e →
      e ≠ PyErr.invalidSpeed :=
  C7_no_speed_validation exCtx exSt1 "waypoints" none (-10) (by norm_num)
    (fun y x e h => Except.noConfusion h)

/-- C8 (counterexample): with a transform that always fails (an
unrecognized reference system), the run does propagate the reprojection
error and returns no output — but only after the first vertex of the
first path has already received its start timestamp in place
(`[0,0]` has become `[0,0,0]`), so the error is *not* raised before any
timestamp is computed. -/
theorem C8_reprojection_ordering_counterexample :
    generate_trips failCtx exSt1 "waypoints" none none =
      (⟨[⟨0, [[[0, 0, 0], [0, 100]]]⟩], 0, 10⟩, Except.error PyErr.reprojection) ∧
    ((⟨[⟨0, [[[0, 0, 0], [0, 100]]]⟩], 0, 10⟩ : TripState).features.getD 0
        dFeat).rings.flatten.getD 0 [] ≠
      (exSt1.features.getD 0 dFeat).rings.flatten.getD 0 [] :=
  ⟨by decide, by decide⟩

/-- C8 (amended): on a run whose transform always fails, the
reprojection error is raised at the *first inter-vertex distance
computation* and propagates (no output is returned), but by then the
first vertex of the first path has already been assigned the start
timestamp; the failure therefore happens after the first timestamp is
computed, not before all of them. -/
theorem C8_reprojection_after_first_timestamp
    (ctx : TransformCtx) (st st' : TripState) (f : Feature) (rest : List Feature)
    (c0 c1 : Vertex) (cs : List Vertex) (r : Except PyErr TripOutput)
    (hfs : st.features = f :: rest)
    (hjoin : f.rings.flatten = c0 :: c1 :: cs)
    (hctx : ∀ y x, ctx.transform y x = Except.error PyErr.reprojection)
    (h : generate_trips ctx st "waypoints" none none = (st', r)) :
    r = Except.error PyErr.reprojection ∧
    (st'.features.getD 0 dFeat).rings.flatten =
      (c0 ++ [(st.start_time : ℚ)]) :: c1 :: cs := by
  have hgd : get_distance ctx (c0 ++ [(st.start_time : ℚ)]) c1 =
      Except.error PyErr.reprojection := by
    rw [get_distance_eq, hctx]
  have hvl : vertexLoop ctx st.m_per_second st.start_time
      (c0 ++ [(st.start_time : ℚ)]) (c1 :: cs) =
      (c1 :: cs, Except.error PyErr.reprojection) := by
    simp only [vertexLoop, hgd]
  have hpc : processCoords ctx st.m_per_second st.start_time (c0 :: c1 :: cs) =
      ((c0 ++ [(st.start_time : ℚ)]) :: c1 :: cs, Except.error PyErr.reprojection) := by
    simp only [processCoords, hvl]
  have hft : featureTime st.start_time st.m_per_second 0 f = st.start_time := by
    rw [featureTime, if_pos rfl]
  have hitf : iterFeatures ctx st.start_time st.m_per_second "waypoints" 0 (f :: rest) =
      (⟨f.distance, splitByLens (f.rings.map List.length)
          ((c0 ++ [(st.start_time : ℚ)]) :: c1 :: cs)⟩ :: rest,
        Except.error PyErr.reprojection) := by
    simp only [iterFeatures, hft, hjoin, hpc]
  unfold generate_trips json_iterator at h
  rw [applyOverrides_none, if_neg (by decide), if_pos rfl, hfs, hitf] at h
  dsimp only at h
  injection h with h1 h2
  subst h1
  subst h2
  refine ⟨rfl, ?_⟩
  have hsum : (f.rings.map List.length).sum =
      ((c0 ++ [(st.start_time : ℚ)]) :: c1 :: cs).length := by
    rw [← List.length_flatten, hjoin]
    simp
  exact splitByLens_flatten_full hsum

/-- Witness for the amended C8 at a concrete input. -/
theorem C8_reprojection_after_first_timestamp_witness :
    Except.error PyErr.reprojection =
      (Except.error PyErr.reprojection : Except PyErr TripOutput) ∧
    (((⟨[⟨0, [[[0, 0, 0], [0, 100]]]⟩], 0, 10⟩ : TripState).features.getD 0
        dFeat).rings.flatten) =
      (([0, 0] : Vertex) ++ [((0 : ℤ) : ℚ)]) :: ([0, 100] : Vertex) :: [] :=
  C8_reprojection_after_first_timestamp failCtx exSt1
    ⟨[⟨0, [[[0, 0, 0], [0, 100]]]⟩], 0, 10⟩
    ⟨0, [[[0, 0], [0, 100]]]⟩ [] [0, 0] [0, 100] []
    (Except.error PyErr.reprojection)
    rfl rfl (fun y x => rfl) (by decide)

/-- C9: `generate_trips` returns a value only when `output_type` is exactly
`"json"` or `"waypoints"`; for every other value no branch assigns the
result variable and the call fails with Python's `UnboundLocalError`
(the override prologue having already run). -/
theorem C9_unknown_output_type
    (ctx : TransformCtx) (st : TripState) (ot : String)
    (o₁ : Option ℤ) (o₂ : Option ℚ)
    (h1 : ot ≠ "json") (h2 : ot ≠ "waypoints") :
    generate_trips ctx st ot o₁ o₂ =
      (applyOverrides st o₁ o₂, Except.error PyErr.unboundLocal) := by
  unfold generate_trips
  rw [if_neg h1, if_neg h2]

/-- Witness for C9: the plausible but unsupported tag `"geojson"`. -/
theorem C9_unknown_output_type_witness :
    generate_trips exCtx exSt1 "geojson" none none =
      (applyOverrides exSt1 none none, Except.error PyErr.unboundLocal) :=
  C9_unknown_output_type exCtx exSt1 "geojson" none none (by decide) (by decide)

/-- C10: explicit overrides are applied only when truthy: passing
`start_time = 0` and `m_per_second = 0` behaves exactly like passing no
overrides (so a fresh `Trip`'s stored defaults `1583884800` and `10`
stay in force), while a truthy override mutates the stored attribute, and
the mutation persists into a later `generate_trips` call. -/
theorem C10_truthy_overrides
    (ctx ctx₂ : TransformCtx) (st : TripState) (fs : List Feature)
    (ot ot₂ : String) (s : ℤ) (hs : s ≠ 0) :
    generate_trips ctx st ot (some 0) (some 0) = generate_trips ctx st ot none none ∧
    (Trip.init fs).start_time = 1583884800 ∧ (Trip.init fs).m_per_second = 10 ∧
    ((generate_trips ctx st ot (some s) none).1).start_time = s ∧
    ((generate_trips ctx₂ ((generate_trips ctx st ot (some s) none).1) ot₂ none
        none).1).start_time = s := by
  refine ⟨?_, rfl, rfl, ?_, ?_⟩
  · unfold generate_trips
    rw [applyOverrides_zero, applyOverrides_none]
  · rw [(generate_trips_fst ctx st ot (some s) none).1, applyOverrides_start hs]
  · rw [(generate_trips_fst ctx₂ _ ot₂ none none).1, applyOverrides_none,
      (generate_trips_fst ctx st ot (some s) none).1, applyOverrides_start hs]

/-- Witness for C10 with the truthy override `start_time = 5`. -/
theorem C10_truthy_overrides_witness :
    generate_trips exCtx exSt1 "waypoints" (some 0) (some 0) =
      generate_trips exCtx exSt1 "waypoints" none none ∧
    (Trip.init []).start_time = 1583884800 ∧ (Trip.init []).m_per_second = 10 ∧
    ((generate_trips exCtx exSt1 "waypoints" (some 5) none).1).start_time = 5 ∧
    ((generate_trips exCtx ((generate_trips exCtx exSt1 "waypoints" (some 5) none).1)
        "waypoints" none none).1).start_time = 5 :=
  C10_truthy_overrides exCtx exCtx exSt1 [] "waypoints" "waypoints" 5 (by decide)
